import Mathlib

/-!
Verification of the epubcheck-go validator/doctor core against its
natural-language specification.

The Go sources embedded here are `pkg/validate/validator.go` and
`pkg/doctor/doctor.go`.  Go byte slices are modelled as `List Nat`
(one `Nat` per byte), Go strings as Lean `String` with character-level
operations (all string data manipulated by the embedded code is ASCII,
where the two views coincide byte for byte), Go maps as association
lists, and fallible Go calls as `Except`/`Option` values.  Components
of the repository that are not part of the embedded sources (the
archive accessor, the check-phase bodies, the ZIP writer, the XML
tokenizer of the standard library) appear either as parameters of the
pipeline or as definitions whose doc comment starts with
`Modelled from the spec:`.
-/

set_option autoImplicit false

namespace EpubCheck

/-! ## Bytes and ASCII string helpers -/

/-- Bytes of an ASCII Lean string, one `Nat` per character. -/
def strBytes (s : String) : List Nat :=
  s.data.map Char.toNat

/-- A Go byte slice rendered back as a string (ASCII model). -/
def strOfBytes (l : List Nat) : String :=
  String.mk (l.map Char.ofNat)

/-- Go `strings.Index`-style whitespace class used by `\s` and
`strings.Fields`: tab, newline, form feed, carriage return, space. -/
def isWSByte (b : Nat) : Bool :=
  b == 9 || b == 10 || b == 12 || b == 13 || b == 32

/-- ASCII upper-casing of one byte, as Go `strings.ToUpper` does for
ASCII input. -/
def upperByte (b : Nat) : Nat :=
  if 97 ≤ b ∧ b ≤ 122 then b - 32 else b

/-- ASCII upper-casing of a byte sequence. -/
def toUpperBytes (l : List Nat) : List Nat :=
  l.map upperByte

/-- ASCII lower-casing of one character, as Go `strings.ToLower` does
for ASCII input. -/
def lowerChar (c : Char) : Char :=
  if 65 ≤ c.toNat ∧ c.toNat ≤ 90 then Char.ofNat (c.toNat + 32) else c

/-- ASCII lower-casing of a string. -/
def goToLower (s : String) : String :=
  String.mk (s.data.map lowerChar)

/-- Does `needle` occur as a contiguous run inside `hay`?  This is the
match test of Go `strings.Contains`. -/
def hasSub (needle : List Nat) : List Nat → Bool
  | [] => needle.isEmpty
  | b :: t => List.isPrefixOf needle (b :: t) || hasSub needle t

/-- Index of the first occurrence of `needle` in `hay`, as Go
`strings.Index` (with `-1` modelled as `none`). -/
def indexOfSub (needle : List Nat) : List Nat → Option Nat
  | [] => if needle.isEmpty then some 0 else none
  | b :: t =>
    if List.isPrefixOf needle (b :: t) then some 0
    else (indexOfSub needle t).map (· + 1)

/-- Go `strings.HasPrefix` (character-level view of the byte-wise
test). -/
def goHasPrefixStr (s pre : String) : Bool :=
  List.isPrefixOf pre.data s.data

/-- Go `strings.TrimSpace` over the ASCII whitespace class. -/
def trimSpaceBytes (l : List Nat) : List Nat :=
  ((l.dropWhile isWSByte).reverse.dropWhile isWSByte).reverse

/-- Byte-wise lexicographic comparison of byte sequences; this is the
order Go's `<` uses on strings. -/
def goBytesLt : List Nat → List Nat → Bool
  | [], [] => false
  | [], _ :: _ => true
  | _ :: _, [] => false
  | a :: as, b :: bs => if a < b then true else if b < a then false else goBytesLt as bs

/-- Go string `<` (byte-wise lexicographic), used by the doctor's
version guards such as `ep.Package.Version < "3.0"`. -/
def goStrLt (s t : String) : Bool :=
  goBytesLt (strBytes s) (strBytes t)

/-- Splitting into maximal whitespace-free runs, as Go
`strings.Fields` on ASCII input.  `cur` accumulates the current word
reversed. -/
def fieldsAux : List Char → List Char → List (List Char)
  | [], cur => if cur.isEmpty then [] else [cur.reverse]
  | c :: t, cur =>
    if isWSByte c.toNat then
      if cur.isEmpty then fieldsAux t [] else cur.reverse :: fieldsAux t []
    else fieldsAux t (c :: cur)

/-- Go `strings.Fields` on ASCII input. -/
def goFields (s : String) : List (List Char) :=
  fieldsAux s.data []

/-! ## Report data model

Modelled from the spec: the `pkg/report` package is not under `src/`;
spec section 6 gives `Report` as a list of findings
`{checkId, severity, message, file?}` with derived severity counts and
`isValid() = fatalCount==0 && errorCount==0`. -/

/-- Finding severity (spec section 3). -/
inductive Severity where
  | fatal
  | error
  | warning
  | info
  deriving DecidableEq, Repr

/-- One validation finding (spec section 3: check id, severity,
message; the optional file is carried inside the message for the
purposes of this model). -/
structure Finding where
  severity : Severity
  checkID : String
  message : String
  deriving DecidableEq, Repr

/-- Modelled from the spec: the report aggregator of `pkg/report`
(absent from `src/`), a plain accumulation of findings. -/
structure Report where
  messages : List Finding
  deriving DecidableEq, Repr

def Report.countSeverity (r : Report) (s : Severity) : Nat :=
  (r.messages.filter (fun m => m.severity == s)).length

def Report.fatalCount (r : Report) : Nat := r.countSeverity Severity.fatal

def Report.errorCount (r : Report) : Nat := r.countSeverity Severity.error

def Report.warningCount (r : Report) : Nat := r.countSeverity Severity.warning

/-- Modelled from the spec: `isValid() = fatalCount==0 && errorCount==0`
(spec section 6). -/
def Report.isValid (r : Report) : Bool :=
  r.fatalCount == 0 && r.errorCount == 0

/-! ## Package model

Modelled from the spec: the `pkg/epub` package is not under `src/`.
Spec section 3 gives the package document as version string, metadata
(with a modified-timestamp field), manifest (items with id, href,
media-type, properties) and spine; only the fields read by the
embedded doctor code are carried. -/

/-- One manifest item as read by the doctor fixers. -/
structure ManifestItem where
  id : String
  href : String
  mediaType : String
  properties : String
  deriving DecidableEq, Repr

/-- The parsed package document fields read by the doctor fixers. -/
structure PackageDoc where
  version : String
  metadataModified : String
  manifest : List ManifestItem
  deriving DecidableEq, Repr

/-- The `epub.EPUB` fields read by the embedded code: the parsed
package (possibly absent when parsing failed) and the rootfile path. -/
structure EPUB where
  package : Option PackageDoc
  rootfilePath : String
  deriving DecidableEq, Repr

/-- Modelled from the spec: `ep.ResolveHref` of the absent `pkg/epub`
package.  Spec section 4.2: resolve relative to the referencing
document's directory, percent-decoding and query/fragment stripping
are out of scope for the hrefs the doctor touches, which are plain
relative paths. -/
def resolveHref (opfPath href : String) : String :=
  let dirChars := (opfPath.data.reverse.dropWhile (fun c => c ≠ '/')).reverse
  String.mk (dirChars ++ href.data)

/-! ## File map

The doctor's `map[string][]byte` snapshot of the archive, modelled as
an association list with unique keys. -/

def FileMap := List (String × List Nat)

instance : DecidableEq FileMap := by
  unfold FileMap
  infer_instance

def fmLookup : FileMap → String → Option (List Nat)
  | [], _ => none
  | (k', v') :: t, k => if k' == k then some v' else fmLookup t k

def fmUpdate : FileMap → String → List Nat → FileMap
  | [], k, v => [(k, v)]
  | (k', v') :: t, k, v =>
    if k' == k then (k, v) :: t else (k', v') :: fmUpdate t k v

/-! ## Fixes -/

/-- `doctor.Fix`: check id, human description, file touched. -/
structure Fix where
  checkID : String
  description : String
  file : String
  deriving DecidableEq, Repr

/-! ## fixMimetype (doctor.go) -/

/-- The required `mimetype` payload. -/
def expectedMimetype : List Nat := strBytes "application/epub+zip"

/-- `doctor.fixMimetype`: ensure the `mimetype` entry exists with the
exact required content; emits OCF-001 when absent, OCF-003 when the
content differs, and nothing otherwise. -/
def fixMimetype (files : FileMap) : List Fix × FileMap :=
  match fmLookup files "mimetype" with
  | none =>
    ([{ checkID := "OCF-001", description := "Added missing mimetype file", file := "" }],
     fmUpdate files "mimetype" expectedMimetype)
  | some current =>
    if current = expectedMimetype then ([], files)
    else
      ([{ checkID := "OCF-003",
          description := "Fixed mimetype content from '" ++
            strOfBytes (trimSpaceBytes current) ++ "' to 'application/epub+zip'",
          file := "" }],
       fmUpdate files "mimetype" expectedMimetype)

/-- The loop body of `doctor.detectZipFixes` (the `switch` over one
finding's check id). -/
def detectZipStep (fs : List Fix) (msg : Finding) : List Fix :=
  if msg.checkID == "OCF-002" then
    fs ++ [{ checkID := "OCF-002", description := "Reordered mimetype as first ZIP entry", file := "" }]
  else if msg.checkID == "OCF-004" then
    fs ++ [{ checkID := "OCF-004", description := "Removed extra field from mimetype ZIP entry", file := "" }]
  else if msg.checkID == "OCF-005" then
    fs ++ [{ checkID := "OCF-005", description := "Changed mimetype from compressed to stored", file := "" }]
  else fs

/-- `doctor.detectZipFixes`: scan the before-report for the three ZIP
structural check ids and emit one fix per matching finding; the file
map is never consulted. -/
def detectZipFixes (r : Report) : List Fix :=
  r.messages.foldl detectZipStep []

/-! ## Version comparison -/

/-- Numeric value of a run of ASCII digits. -/
def leadingNat (l : List Char) : Nat :=
  (l.takeWhile Char.isDigit).foldl (fun a c => a * 10 + (c.toNat - 48)) 0

/-- Modelled from the spec: the derived `isAtLeastV3` predicate of
spec section 3 ("compared as a derived isAtLeastV3 boolean, not string
ordering"): true for every version string whose leading numeric
component designates 3 or later. -/
def isAtLeastV3 (v : String) : Bool :=
  !(v.data.takeWhile Char.isDigit).isEmpty && 3 ≤ leadingNat v.data

/-! ## fixDCTermsModified (doctor.go) -/

/-- `doctor.findClosingTag`: index of `</tag>`, else of the first
`</w+:tag>` (one or more word characters before the colon), else
none.  Go `\w` is `[0-9A-Za-z_]`. -/
def isWordByte (b : Nat) : Bool :=
  (48 ≤ b && b ≤ 57) || (65 ≤ b && b ≤ 90) || (97 ≤ b && b ≤ 122) || b == 95

/-- Does a `</w+:tag>` pattern start at the head of `l`? -/
def prefixedCloseAt (tag : String) (l : List Nat) : Bool :=
  if List.isPrefixOf (strBytes "</") l then
    let rest := l.drop 2
    let w := rest.takeWhile isWordByte
    !w.isEmpty && List.isPrefixOf (strBytes (":" ++ tag ++ ">")) (rest.drop w.length)
  else false

/-- Leftmost start index in `l` of a `</w+:tag>` match. -/
def prefixedCloseIdx (tag : String) : List Nat → Option Nat
  | [] => none
  | b :: t =>
    if prefixedCloseAt tag (b :: t) then some 0
    else (prefixedCloseIdx tag t).map (· + 1)

def findClosingTag (content : List Nat) (tag : String) : Option Nat :=
  match indexOfSub (strBytes ("</" ++ tag ++ ">")) content with
  | some i => some i
  | none => prefixedCloseIdx tag content

/-- The insertion-point search of `fixDCTermsModified`: plain
`</metadata>` first, then the namespace-prefixed fallback. -/
def metaClosePoint (content : List Nat) : Option Nat :=
  match indexOfSub (strBytes "</metadata>") content with
  | some i => some i
  | none => findClosingTag content "metadata"

/-- `doctor.fixDCTermsModified`: add a `dcterms:modified` meta element
when the (pre-captured) package is EPUB 3 by Go string comparison and
its modified field is empty; the current time is a parameter `now`
(in the code, `time.Now().UTC().Format("2006-01-02T15:04:05Z")`). -/
def fixDCTermsModified (files : FileMap) (ep : EPUB) (now : String) : List Fix × FileMap :=
  match ep.package with
  | none => ([], files)
  | some pkg =>
    if goStrLt pkg.version "3.0" then ([], files)
    else if pkg.metadataModified ≠ "" then ([], files)
    else
      match fmLookup files ep.rootfilePath with
      | none => ([], files)
      | some content =>
        match metaClosePoint content with
        | none => ([], files)
        | some i =>
          let insertion := strBytes ("    <meta property=\"dcterms:modified\">" ++ now ++ "</meta>\n  ")
          let newContent := content.take i ++ insertion ++ content.drop i
          ([{ checkID := "OPF-004",
              description := "Added dcterms:modified with value '" ++ now ++ "'",
              file := ep.rootfilePath }],
           fmUpdate files ep.rootfilePath newContent)

/-! ## Regex models used by the OPF patchers

Go's `regexp` package is standard-library code outside this
repository; the three patterns the doctor compiles are embedded
directly with RE2's leftmost-match rule: a pattern of the shape
`<item\s[^>]*NEEDLE[^>]*>` matches from the leftmost `<item` +
whitespace whose following `>`-free run contains `NEEDLE`, up to the
first `>` of that run. -/

/-- The match of `<item\s[^>]*NEEDLE[^>]*/?>` starting at `s`
(`s` is a suffix of the document), if any. -/
def itemMatchHere (needle s : List Nat) : Option (List Nat) :=
  if List.isPrefixOf (strBytes "<item") s ∧ isWSByte (s.getD 5 0) ∧ 5 < s.length then
    let rest := s.drop 6
    match rest.findIdx? (· == 62) with
    | some k => if hasSub needle (rest.take k) then some (s.take (6 + k + 1)) else none
    | none => none
  else none

/-- Leftmost match of `<item\s[^>]*NEEDLE[^>]*/?>` in `opf`. -/
def findItemMatch (needle : List Nat) : List Nat → Option (List Nat)
  | [] => none
  | b :: t =>
    match itemMatchHere needle (b :: t) with
    | some m => some m
    | none => findItemMatch needle t

/-- Go `strings.Replace(s, old, new, 1)` for a non-empty `old`. -/
def replaceFirst (needle repl : List Nat) : List Nat → List Nat
  | [] => []
  | b :: t =>
    if List.isPrefixOf needle (b :: t) then repl ++ (b :: t).drop needle.length
    else b :: replaceFirst needle repl t

/-- First of `needles` that is a run at the head of `l`, returning its
length. -/
def matchAnyLen (needles : List (List Nat)) (l : List Nat) : Option Nat :=
  needles.findSome? (fun n => if List.isPrefixOf n l then some n.length else none)

/-- `regexp.ReplaceAllString` for an alternation of literal needles:
scan left to right, replacing each non-overlapping leftmost match.
Fuel-structured on the input length. -/
def replaceAllAnyAux (needles : List (List Nat)) (repl : List Nat) : Nat → List Nat → List Nat
  | 0, l => l
  | _ + 1, [] => []
  | fuel + 1, b :: t =>
    match matchAnyLen needles (b :: t) with
    | some k =>
      if k = 0 then b :: replaceAllAnyAux needles repl fuel t
      else repl ++ replaceAllAnyAux needles repl fuel ((b :: t).drop k)
    | none => b :: replaceAllAnyAux needles repl fuel t

def replaceAllAny (needles : List (List Nat)) (repl l : List Nat) : List Nat :=
  replaceAllAnyAux needles repl l.length l

/-- The four literal forms of `attr=["']VALUE["']`. -/
def attrNeedles (attr value : String) : List (List Nat) :=
  [strBytes (attr ++ "=\"" ++ value ++ "\""),
   strBytes (attr ++ "=\"" ++ value ++ "'"),
   strBytes (attr ++ "='" ++ value ++ "\""),
   strBytes (attr ++ "='" ++ value ++ "'")]

/-- `doctor.fixManifestItemMediaType`: locate the `<item>` element
carrying `href="HREF"` (double- then single-quoted), rewrite its
`media-type` attribute, and splice the rewritten element back in
place. -/
def fixManifestItemMediaType (opf : List Nat) (href oldType newType : String) : List Nat :=
  let m? :=
    match findItemMatch (strBytes ("href=\"" ++ href ++ "\"")) opf with
    | some m => some m
    | none => findItemMatch (strBytes ("href='" ++ href ++ "'")) opf
  match m? with
  | none => opf
  | some m =>
    let newMatch := replaceAllAny (attrNeedles "media-type" oldType)
      (strBytes ("media-type=\"" ++ newType ++ "\"")) m
    replaceFirst m newMatch opf

/-- `doctor.fixManifestItemProperties`: locate the `<item>` element
with `id="ID"`, then either insert a fresh `properties` attribute
before the closing bracket (when the pre-captured properties string is
empty) or rewrite the existing attribute value. -/
def fixManifestItemProperties (opf : List Nat) (itemID oldProps newProps : String) : List Nat :=
  let m? :=
    match findItemMatch (strBytes ("id=\"" ++ itemID ++ "\"")) opf with
    | some m => some m
    | none => findItemMatch (strBytes ("id='" ++ itemID ++ "'")) opf
  match m? with
  | none => opf
  | some m =>
    let newMatch :=
      if oldProps = "" then
        if List.isSuffixOf (strBytes "/>") m then
          m.take (m.length - 2) ++ strBytes (" properties=\"" ++ newProps ++ "\"/>")
        else
          m.take (m.length - 1) ++ strBytes (" properties=\"" ++ newProps ++ "\">")
      else
        replaceAllAny (attrNeedles "properties" oldProps)
          (strBytes ("properties=\"" ++ newProps ++ "\"")) m
    replaceFirst m newMatch opf

/-! ## fixMediaTypes (doctor.go) -/

/-- Go `path.Ext`: the suffix beginning at the final dot in the final
slash-separated element, or empty when that element has no dot.
Scans the reversed path, re-accumulating the scanned suffix in `acc`. -/
def pathExtAux : List Char → List Char → String
  | [], _ => ""
  | c :: t, acc =>
    if c = '/' then "" else if c = '.' then String.mk (c :: acc) else pathExtAux t (c :: acc)

def pathExt (p : String) : String :=
  pathExtAux p.data.reverse []

/-- `doctor.extensionToMediaType`: the fixed lower-case extension
table. -/
def extensionToMediaType (ext : String) : String :=
  if ext = ".xhtml" ∨ ext = ".html" ∨ ext = ".htm" then "application/xhtml+xml"
  else if ext = ".css" then "text/css"
  else if ext = ".js" then "application/javascript"
  else if ext = ".png" then "image/png"
  else if ext = ".jpg" ∨ ext = ".jpeg" then "image/jpeg"
  else if ext = ".gif" then "image/gif"
  else if ext = ".svg" then "image/svg+xml"
  else if ext = ".webp" then "image/webp"
  else if ext = ".ncx" then "application/x-dtbncx+xml"
  else if ext = ".woff" then "font/woff"
  else if ext = ".woff2" then "font/woff2"
  else if ext = ".ttf" then "font/ttf"
  else if ext = ".otf" then "font/otf"
  else if ext = ".mp3" then "audio/mpeg"
  else if ext = ".mp4" then "video/mp4"
  else if ext = ".smil" then "application/smil+xml"
  else ""

def pngMagic : List Nat := [0x89, 0x50, 0x4e, 0x47, 0x0d, 0x0a, 0x1a, 0x0a]

def jpegMagic : List Nat := [0xff, 0xd8, 0xff]

def gifMagic : List Nat := [0x47, 0x49, 0x46, 0x38]

/-- The manifest-item sentinel `"\x00MISSING"` used by the parser for
absent attributes. -/
def missingAttr : String := "\x00MISSING"

/-- The magic-byte detection block of `doctor.fixMediaTypes`: only for
declared `image/*` other than SVG, only when the resolved file exists
in the map and has at least 8 bytes. -/
def detectedByMagicFor (files : FileMap) (ep : EPUB) (item : ManifestItem) : String :=
  match fmLookup files (resolveHref ep.rootfilePath item.href) with
  | none => ""
  | some data =>
    if goHasPrefixStr item.mediaType "image/" ∧ item.mediaType ≠ "image/svg+xml" then
      if 8 ≤ data.length then
        if List.isPrefixOf pngMagic data then "image/png"
        else if List.isPrefixOf jpegMagic data then "image/jpeg"
        else if List.isPrefixOf gifMagic data then "image/gif"
        else ""
      else ""
    else ""

/-- The `correctType` selection of `doctor.fixMediaTypes`: prefer a
magic-byte detection that disagrees with the declared type; otherwise
use the extension expectation, but never to re-type one image format
as another. -/
def correctTypeFor (detected expectedByExt declared : String) : String :=
  if detected ≠ "" ∧ detected ≠ declared then detected
  else if expectedByExt ≠ "" ∧ expectedByExt ≠ declared then
    if ¬ goHasPrefixStr declared "image/" ∨ ¬ goHasPrefixStr expectedByExt "image/" then expectedByExt
    else ""
  else ""

/-- The per-item step of `doctor.fixMediaTypes`: the emitted fix (and
the chosen corrected type), or nothing. -/
def mediaFixFor (files : FileMap) (ep : EPUB) (item : ManifestItem) : Option (Fix × String) :=
  if item.href = missingAttr ∨ item.mediaType = missingAttr then none
  else
    let detected := detectedByMagicFor files ep item
    let expectedByExt := extensionToMediaType (goToLower (pathExt item.href))
    let ct := correctTypeFor detected expectedByExt item.mediaType
    if ct ≠ "" then
      some ({ checkID := "OPF-024",
              description := "Fixed media-type for '" ++ item.href ++ "' from '" ++
                item.mediaType ++ "' to '" ++ ct ++ "'",
              file := ep.rootfilePath }, ct)
    else none

/-- `doctor.fixMediaTypes`: walk the manifest in order, emitting a fix
and patching the OPF in the live file map for every mismatched item. -/
def fixMediaTypes (files : FileMap) (ep : EPUB) : List Fix × FileMap :=
  match ep.package with
  | none => ([], files)
  | some pkg =>
    pkg.manifest.foldl
      (fun acc item =>
        match mediaFixFor acc.2 ep item with
        | none => acc
        | some (fx, ct) =>
          let opfData := (fmLookup acc.2 ep.rootfilePath).getD []
          let newOpf := fixManifestItemMediaType opfData item.href item.mediaType ct
          (acc.1 ++ [fx], fmUpdate acc.2 ep.rootfilePath newOpf))
      ([], files)

/-! ## fixManifestProperties (doctor.go) -/

/-- `doctor.hasProperty`: membership of a token in a space-separated
property list. -/
def hasPropertyB (properties prop : String) : Bool :=
  (goFields properties).any (fun w => w == prop.data)

/-- One start element as produced by Go's `encoding/xml` decoder:
local name and namespace URI. -/
structure XmlStart where
  localName : String
  spaceName : String
  deriving DecidableEq, Repr

/-- Modelled from the spec: the XML tokenizer is Go standard-library
code outside this repository; only the stream of start elements it
yields for a document is relevant, carried here as a parameter. -/
structure Ext where
  startElements : List Nat → List XmlStart

/-- `doctor.detectContentFeatures` over the abstract token stream:
script / SVG / MathML markers by local tag name or namespace URI. -/
def detectContentFeatures (ext : Ext) (data : List Nat) : Bool × Bool × Bool :=
  (ext.startElements data).foldl
    (fun acc se =>
      (acc.1 || se.localName == "script",
       acc.2.1 || se.localName == "svg" || se.spaceName == "http://www.w3.org/2000/svg",
       acc.2.2 || se.localName == "math" || se.spaceName == "http://www.w3.org/1998/Math/MathML"))
    (false, false, false)

/-- The check id chosen for one added property token. -/
def propCheckID (m : String) : String :=
  if m == "svg" then "HTM-006" else if m == "mathml" then "HTM-007" else "HTM-005"

/-- `doctor.fixManifestProperties`: for each non-nav XHTML manifest
item whose content shows script/SVG/MathML features missing from its
pre-captured properties, append the missing tokens in the OPF and
emit one fix per token. -/
def fixManifestProperties (ext : Ext) (files : FileMap) (ep : EPUB) : List Fix × FileMap :=
  match ep.package with
  | none => ([], files)
  | some pkg =>
    if goStrLt pkg.version "3.0" then ([], files)
    else
      pkg.manifest.foldl
        (fun acc item =>
          if item.href = missingAttr ∨ item.mediaType ≠ "application/xhtml+xml" then acc
          else
            match fmLookup acc.2 (resolveHref ep.rootfilePath item.href) with
            | none => acc
            | some data =>
              if hasPropertyB item.properties "nav" then acc
              else
                let feats := detectContentFeatures ext data
                let missing :=
                  (if feats.1 ∧ ¬ hasPropertyB item.properties "scripted" then ["scripted"] else []) ++
                  (if feats.2.1 ∧ ¬ hasPropertyB item.properties "svg" then ["svg"] else []) ++
                  (if feats.2.2 ∧ ¬ hasPropertyB item.properties "mathml" then ["mathml"] else [])
                if missing.isEmpty then acc
                else
                  let newProps := missing.foldl
                    (fun np m => if np = "" then m else np ++ " " ++ m) item.properties
                  let opfData := (fmLookup acc.2 ep.rootfilePath).getD []
                  let opfStr := fixManifestItemProperties opfData item.id item.properties newProps
                  let newFixes := missing.map (fun m =>
                    { checkID := propCheckID m,
                      description := "Added '" ++ m ++ "' property to manifest item '" ++ item.id ++ "'",
                      file := ep.rootfilePath })
                  (acc.1 ++ newFixes, fmUpdate acc.2 ep.rootfilePath opfStr))
        ([], files)

/-! ## fixDoctype (doctor.go) -/

def doctypeBytes : List Nat := strBytes "<!DOCTYPE"

/-- Case-insensitive (ASCII) prefix test, for `(?i)<!DOCTYPE`. -/
def ciPrefixOf (needleUpper l : List Nat) : Bool :=
  List.isPrefixOf needleUpper (toUpperBytes (l.take needleUpper.length))

/-- Leftmost match of `(?i)<!DOCTYPE[^>]*>`: the text from a
case-insensitive `<!DOCTYPE` to the first following `>`. -/
def doctypeFind : List Nat → Option (List Nat)
  | [] => none
  | b :: t =>
    if ciPrefixOf doctypeBytes (b :: t) then
      match ((b :: t).drop 9).findIdx? (· == 62) with
      | some k => some ((b :: t).take (9 + k + 1))
      | none => doctypeFind t
    else doctypeFind t

/-- `regexp.ReplaceAllString` for `(?i)<!DOCTYPE[^>]*>` with the
HTML5 doctype, fuel-structured on the input length. -/
def doctypeReplaceAux : Nat → List Nat → List Nat
  | 0, l => l
  | _ + 1, [] => []
  | fuel + 1, b :: t =>
    if ciPrefixOf doctypeBytes (b :: t) then
      match ((b :: t).drop 9).findIdx? (· == 62) with
      | some k => strBytes "<!DOCTYPE html>" ++ doctypeReplaceAux fuel ((b :: t).drop (9 + k + 1))
      | none => b :: doctypeReplaceAux fuel t
    else b :: doctypeReplaceAux fuel t

def doctypeReplaceAll (l : List Nat) : List Nat :=
  doctypeReplaceAux l.length l

/-- `doctor.fixDoctype`: in EPUB 3 (Go string comparison) XHTML
content documents, replace a doctype containing an XHTML or DTD
marker (case-insensitive) with the HTML5 doctype. -/
def fixDoctype (files : FileMap) (ep : EPUB) : List Fix × FileMap :=
  match ep.package with
  | none => ([], files)
  | some pkg =>
    if goStrLt pkg.version "3.0" then ([], files)
    else
      pkg.manifest.foldl
        (fun acc item =>
          if item.mediaType ≠ "application/xhtml+xml" ∨ item.href = missingAttr then acc
          else
            let fullPath := resolveHref ep.rootfilePath item.href
            match fmLookup acc.2 fullPath with
            | none => acc
            | some data =>
              match doctypeFind data with
              | none => acc
              | some m =>
                let upper := toUpperBytes m
                if hasSub (strBytes "XHTML") upper || hasSub (strBytes "DTD") upper then
                  (acc.1 ++ [{ checkID := "HTM-010",
                               description := "Replaced non-HTML5 DOCTYPE with <!DOCTYPE html>",
                               file := fullPath }],
                   fmUpdate acc.2 fullPath (doctypeReplaceAll data))
                else acc)
        ([], files)

/-! ## Archive writer -/

/-- One ZIP entry attribute set: name, payload, stored-uncompressed
flag, header extra field (spec sections 3 and 6). -/
structure ZipEntry where
  name : String
  data : List Nat
  storedUncompressed : Bool
  extraField : List Nat
  deriving DecidableEq, Repr

/-- Modelled from the spec: `doctor.writeEPUB` lives in the absent
`pkg/doctor/writer.go`.  Spec section 6: the writer takes the ordered
entries and, whenever an entry named `mimetype` is present among the
inputs, places it at output index 0, forces it stored-uncompressed,
and emits it with an empty extra field, regardless of input order or
flags; other entries keep their input order and attributes. -/
def writeEPUB (entries : List ZipEntry) : List ZipEntry :=
  match entries.find? (fun e => e.name == "mimetype") with
  | none => entries
  | some m =>
    { name := "mimetype", data := m.data, storedUncompressed := true, extraField := [] } ::
      entries.filter (fun e => e.name ≠ "mimetype")

/-! ## Repair (doctor.go) -/

/-- `doctor.Result`. -/
structure DoctorResult where
  fixes : List Fix
  beforeReport : Report
  afterReport : Report
  deriving DecidableEq, Repr

/-- The file system seen by the doctor: archive contents by path. -/
def ArchFS := List (String × List ZipEntry)

instance : DecidableEq ArchFS := by
  unfold ArchFS
  infer_instance

def afsLookup : ArchFS → String → Option (List ZipEntry)
  | [], _ => none
  | (k', v') :: t, k => if k' == k then some v' else afsLookup t k

def afsUpdate : ArchFS → String → List ZipEntry → ArchFS
  | [], k, v => [(k, v)]
  | (k', v') :: t, k, v =>
    if k' == k then (k, v) :: t else (k', v') :: afsUpdate t k v

/-- The collaborators of `doctor.Repair` that live outside the
embedded sources: `epub.Open`+`ParseContainer`+`ParseOPF` as a model
extractor over the archive, `validate.Validate` as a report over the
archive, the XML tokenizer, and the current time. -/
structure RepairDeps where
  openEp : List ZipEntry → Option EPUB
  validateArch : List ZipEntry → Report
  ext : Ext
  now : String

/-- The short-circuit result of `doctor.Repair`: the before-report
doubles as after-report and the fix list is empty. -/
def repairShort (before : Report) : DoctorResult :=
  { fixes := [], beforeReport := before, afterReport := before }

/-- Step 2 of `doctor.Repair`: all archive entries read into the
mutable name-to-bytes map. -/
def repairFilesOf (arch : List ZipEntry) : FileMap :=
  arch.map (fun e => (e.name, e.data))

/-- Step 4 of `doctor.Repair`: the repaired file map handed to the
writer as plain (name, bytes) entries. -/
def repairOut (files : FileMap) : List ZipEntry :=
  writeEPUB (files.map (fun p =>
    { name := p.1, data := p.2, storedUncompressed := false, extraField := [] }))

/-- The fix catalog of `doctor.Repair` steps 3, in call order,
threading the mutable file map. -/
def repairAllFixes (d : RepairDeps) (before : Report) (files : FileMap) (ep : EPUB) :
    List Fix × FileMap :=
  let r1 := fixMimetype files
  let f2 := detectZipFixes before
  let r3 := fixDCTermsModified r1.2 ep d.now
  let r4 := fixMediaTypes r3.2 ep
  let r5 := fixManifestProperties d.ext r4.2 ep
  let r6 := fixDoctype r5.2 ep
  (r1.1 ++ f2 ++ r3.1 ++ r4.1 ++ r5.1 ++ r6.1, r6.2)

/-- `doctor.Repair`: open, validate, short-circuit when clean, apply
the fixer catalog, short-circuit when it produced nothing, else write
the repaired archive to the output path and re-validate it.  Returns
the result together with the file system after the call. -/
def Repair (d : RepairDeps) (fs : ArchFS) (inputPath outputPath : String) :
    Except String (DoctorResult × ArchFS) :=
  let outPath := if outputPath = "" then inputPath ++ ".fixed.epub" else outputPath
  match afsLookup fs inputPath with
  | none => Except.error "opening epub"
  | some arch =>
    match d.openEp arch with
    | none => Except.error "opening epub"
    | some ep =>
      let before := d.validateArch arch
      if before.isValid && before.warningCount == 0 then
        Except.ok (repairShort before, fs)
      else
        let res := repairAllFixes d before (repairFilesOf arch) ep
        if res.1.isEmpty then
          Except.ok (repairShort before, fs)
        else
          Except.ok ({ fixes := res.1, beforeReport := before,
                       afterReport := d.validateArch (repairOut res.2) },
                     afsUpdate fs outPath (repairOut res.2))

/-! ## Validation pipeline (validator.go) -/

/-- `validate.Options`. -/
structure Options where
  strict : Bool
  accessibility : Bool
  deriving DecidableEq, Repr

/-- Modelled from the spec: the check-phase bodies (`checkOCF`,
`checkOPF`, ...) and `epub.OpenFromBytes` are not under `src/`; spec
section 4.3 describes each phase as a pure function over the model
producing findings, with `checkOCF`/`checkOPF` additionally signalling
the fatal short-circuits.  The signatures mirror the call sites in
`validator.go`; `checkEncoding` also yields the bad-encoding file
list handed to `checkContentWithSkips`. -/
structure VDeps where
  openFromBytes : List Nat → Except String EPUB
  checkOCF : EPUB → Options → List Finding × Bool
  checkOPF : EPUB → List Finding × Bool
  checkReferences : EPUB → Options → List Finding
  checkNavigation : EPUB → List Finding
  checkEncoding : EPUB → List Finding × List String
  checkContentWithSkips : EPUB → List String → List Finding
  checkCSS : EPUB → List Finding
  checkFXL : EPUB → List Finding
  checkMedia : EPUB → List Finding
  checkEPUB2 : EPUB → List Finding
  checkAccessibility : EPUB → List Finding

/-- `validate.ValidateBytesWithOptions`: the eleven-phase pipeline
over raw bytes.  Every Go return path is `return r, nil`; failure to
open adds the single Fatal PKG-000 finding. -/
def ValidateBytesWithOptions (d : VDeps) (data : List Nat) (opts : Options) :
    Except String Report :=
  match d.openFromBytes data with
  | Except.error e =>
    Except.ok { messages := [{ severity := Severity.fatal, checkID := "PKG-000",
                               message := "Could not open EPUB: " ++ e }] }
  | Except.ok ep =>
    let p1 := d.checkOCF ep opts
    if p1.2 then Except.ok { messages := p1.1 }
    else
      let p2 := d.checkOPF ep
      if p2.2 then Except.ok { messages := p1.1 ++ p2.1 }
      else
        let p5 := d.checkEncoding ep
        let msgs := p1.1 ++ p2.1 ++ d.checkReferences ep opts ++ d.checkNavigation ep ++
          p5.1 ++ d.checkContentWithSkips ep p5.2 ++ d.checkCSS ep ++ d.checkFXL ep ++
          d.checkMedia ep ++ d.checkEPUB2 ep ++
          (if opts.accessibility then d.checkAccessibility ep else [])
        Except.ok { messages := msgs }

/-- The file system seen by the path-based entry points: raw bytes by
path (`FileMap` doubles as this view). -/
def bytesAt (fs : FileMap) (path : String) : Option (List Nat) :=
  fmLookup fs path

/-- `validate.ValidateWithOptions`: identical pipeline, with
`epub.Open(path)` modelled (from spec section 6 `open(bytes|path)`) as
reading the bytes at `path` and opening them. -/
def ValidateWithOptions (d : VDeps) (fs : FileMap) (path : String) (opts : Options) :
    Except String Report :=
  match bytesAt fs path with
  | none =>
    Except.ok { messages := [{ severity := Severity.fatal, checkID := "PKG-000",
                               message := "Could not open EPUB: " ++ ("open " ++ path ++ ": no such file or directory") }] }
  | some data =>
    match d.openFromBytes data with
    | Except.error e =>
      Except.ok { messages := [{ severity := Severity.fatal, checkID := "PKG-000",
                                 message := "Could not open EPUB: " ++ e }] }
    | Except.ok ep =>
      let p1 := d.checkOCF ep opts
      if p1.2 then Except.ok { messages := p1.1 }
      else
        let p2 := d.checkOPF ep
        if p2.2 then Except.ok { messages := p1.1 ++ p2.1 }
        else
          let p5 := d.checkEncoding ep
          let msgs := p1.1 ++ p2.1 ++ d.checkReferences ep opts ++ d.checkNavigation ep ++
            p5.1 ++ d.checkContentWithSkips ep p5.2 ++ d.checkCSS ep ++ d.checkFXL ep ++
            d.checkMedia ep ++ d.checkEPUB2 ep ++
            (if opts.accessibility then d.checkAccessibility ep else [])
          Except.ok { messages := msgs }

/-- `validate.Validate`. -/
def Validate (d : VDeps) (fs : FileMap) (path : String) : Except String Report :=
  ValidateWithOptions d fs path { strict := false, accessibility := false }

/-- `validate.ValidateBytes`. -/
def ValidateBytes (d : VDeps) (data : List Nat) : Except String Report :=
  ValidateBytesWithOptions d data { strict := false, accessibility := false }

/-! ## Derived notions used by the verification statements -/

/-- Does a finding carry one of the three ZIP-structural check ids? -/
def isZipFixID (m : Finding) : Bool :=
  m.checkID == "OCF-002" || m.checkID == "OCF-004" || m.checkID == "OCF-005"

/-- The fix `detectZipFixes` emits for one matching finding. -/
def zipFixOf (m : Finding) : Fix :=
  if m.checkID == "OCF-002" then
    { checkID := "OCF-002", description := "Reordered mimetype as first ZIP entry", file := "" }
  else if m.checkID == "OCF-004" then
    { checkID := "OCF-004", description := "Removed extra field from mimetype ZIP entry", file := "" }
  else
    { checkID := "OCF-005", description := "Changed mimetype from compressed to stored", file := "" }

/-- Number of Fatal findings in a list. -/
def countFatal (l : List Finding) : Nat :=
  (l.filter (fun m => m.severity == Severity.fatal)).length

/-- Modelled from the spec: section 7's contract for the absent
check-phase bodies — the fatal boundaries (container/archive level and
package-parse level) emit a single Fatal finding when they signal the
short-circuit, and every other problem is a non-aborting, non-Fatal
finding. -/
def PhasesFatalSpec (d : VDeps) : Prop :=
  (∀ ep o, (d.checkOCF ep o).2 = true → countFatal (d.checkOCF ep o).1 = 1) ∧
  (∀ ep o, (d.checkOCF ep o).2 = false → countFatal (d.checkOCF ep o).1 = 0) ∧
  (∀ ep, (d.checkOPF ep).2 = true → countFatal (d.checkOPF ep).1 = 1) ∧
  (∀ ep, (d.checkOPF ep).2 = false → countFatal (d.checkOPF ep).1 = 0) ∧
  (∀ ep o, countFatal (d.checkReferences ep o) = 0) ∧
  (∀ ep, countFatal (d.checkNavigation ep) = 0) ∧
  (∀ ep, countFatal (d.checkEncoding ep).1 = 0) ∧
  (∀ ep bad, countFatal (d.checkContentWithSkips ep bad) = 0) ∧
  (∀ ep, countFatal (d.checkCSS ep) = 0) ∧
  (∀ ep, countFatal (d.checkFXL ep) = 0) ∧
  (∀ ep, countFatal (d.checkMedia ep) = 0) ∧
  (∀ ep, countFatal (d.checkEPUB2 ep) = 0) ∧
  (∀ ep, countFatal (d.checkAccessibility ep) = 0)

/-- The findings of the complete (no-fatal) pipeline, in phase order. -/
def fullPhaseFindings (d : VDeps) (ep : EPUB) (opts : Options) : List Finding :=
  (d.checkOCF ep opts).1 ++ (d.checkOPF ep).1 ++ d.checkReferences ep opts ++
    d.checkNavigation ep ++ (d.checkEncoding ep).1 ++
    d.checkContentWithSkips ep (d.checkEncoding ep).2 ++ d.checkCSS ep ++ d.checkFXL ep ++
    d.checkMedia ep ++ d.checkEPUB2 ep ++
    (if opts.accessibility then d.checkAccessibility ep else [])

/-! ## Concrete instances used by witnesses and counterexamples -/

/-- An EPUB-3 model with an empty modified field. -/
def ep4 : EPUB :=
  { package := some { version := "3.0", metadataModified := "", manifest := [] },
    rootfilePath := "content.opf" }

def pkg4 : PackageDoc := { version := "3.0", metadataModified := "", manifest := [] }

/-- A package document with a closable metadata element. -/
def opfContent4 : List Nat := strBytes "<package><metadata></metadata></package>"

def files4 : FileMap := [("content.opf", opfContent4), ("mimetype", expectedMimetype)]

/-- A version string designating at least 3 that Go string order puts
below "3.0". -/
def ep10 : EPUB :=
  { package := some { version := "10.0", metadataModified := "", manifest := [] },
    rootfilePath := "content.opf" }

/-- A package document without any metadata closing tag. -/
def filesNoMeta : FileMap := [("content.opf", strBytes "<package></package>")]

/-- A manifest item declared PNG over a 3-byte JPEG-magic file. -/
def item5 : ManifestItem := { id := "c", href := "c.png", mediaType := "image/png", properties := "" }

def ep5 : EPUB :=
  { package := some { version := "3.0", metadataModified := "x", manifest := [item5] },
    rootfilePath := "content.opf" }

def files5 : FileMap := [("c.png", [0xff, 0xd8, 0xff])]

/-- A manifest item declared PNG over an 11-byte JPEG file. -/
def item5b : ManifestItem :=
  { id := "c", href := "cover.jpg", mediaType := "image/png", properties := "" }

def jpegData5b : List Nat := [0xff, 0xd8, 0xff, 0xe0, 0x00, 0x10, 0x4a, 0x46, 0x49, 0x46, 0x00]

def ep5b : EPUB :=
  { package := some { version := "3.0", metadataModified := "x", manifest := [item5b] },
    rootfilePath := "content.opf" }

def files5b : FileMap :=
  [("cover.jpg", jpegData5b),
   ("content.opf", strBytes "<manifest><item id=\"c\" href=\"cover.jpg\" media-type=\"image/png\"/></manifest>")]

/-- Inputs for the writer invariant: mimetype out of order, flagged
compressed, with a nonempty extra field. -/
def entries3 : List ZipEntry :=
  [{ name := "a.txt", data := [65], storedUncompressed := false, extraField := [] },
   { name := "mimetype", data := expectedMimetype, storedUncompressed := false, extraField := [7] }]

/-- A file map already carrying the correct mimetype entry. -/
def files6 : FileMap := [("mimetype", expectedMimetype)]

def filesA : FileMap := [("a", [1])]

/-- A report mixing ZIP-structural and unrelated check ids. -/
def zr6 : Report :=
  { messages := [⟨Severity.error, "OCF-002", "x"⟩, ⟨Severity.info, "AAA", "y"⟩,
                 ⟨Severity.error, "OCF-005", "z"⟩] }

/-- An EPUB-2 model (gates every version-3 fixer off). -/
def ep20 : EPUB :=
  { package := some { version := "2.0", metadataModified := "x", manifest := [] },
    rootfilePath := "content.opf" }

/-- A before-report holding a single warning outside the fixer
catalog. -/
def w1 : Report := { messages := [⟨Severity.warning, "CSS-005", "x"⟩] }

def d1 : RepairDeps :=
  { openEp := fun _ => some ep20, validateArch := fun _ => w1,
    ext := ⟨fun _ => []⟩, now := "T" }

def arch1 : List ZipEntry :=
  [{ name := "mimetype", data := expectedMimetype, storedUncompressed := true, extraField := [] }]

def fs1 : ArchFS := [("in.epub", arch1)]

/-- A before-report holding a single error the mimetype fixer
addresses. -/
def rep8 : Report := { messages := [⟨Severity.error, "OCF-001", "missing"⟩] }

def d8 : RepairDeps :=
  { openEp := fun _ => some ep20, validateArch := fun _ => rep8,
    ext := ⟨fun _ => []⟩, now := "T" }

def arch8 : List ZipEntry :=
  [{ name := "a.txt", data := [65], storedUncompressed := false, extraField := [] }]

def fs8 : ArchFS := [("b.epub", arch8)]

/-- The repaired archive `Repair` writes for `arch8`. -/
def out8 : List ZipEntry :=
  [{ name := "mimetype", data := expectedMimetype, storedUncompressed := true, extraField := [] },
   { name := "a.txt", data := [65], storedUncompressed := false, extraField := [] }]

def res8 : DoctorResult :=
  { fixes := [{ checkID := "OCF-001", description := "Added missing mimetype file", file := "" }],
    beforeReport := rep8, afterReport := rep8 }

/-- A trivial model and dependency set for pipeline witnesses. -/
def ep0 : EPUB := { package := none, rootfilePath := "" }

def d0 : VDeps :=
  { openFromBytes := fun _ => Except.ok ep0,
    checkOCF := fun _ _ => ([⟨Severity.error, "OCF-002", "m"⟩], false),
    checkOPF := fun _ => ([], false),
    checkReferences := fun _ _ => [],
    checkNavigation := fun _ => [],
    checkEncoding := fun _ => ([], []),
    checkContentWithSkips := fun _ _ => [],
    checkCSS := fun _ => [],
    checkFXL := fun _ => [],
    checkMedia := fun _ => [],
    checkEPUB2 := fun _ => [],
    checkAccessibility := fun _ => [] }

def opts0 : Options := { strict := false, accessibility := false }

def fs9 : FileMap := [("a.epub", [1, 2, 3])]

/-! ## Helper lemmas -/

theorem fmLookup_update_self (m : FileMap) (k : String) (v : List Nat) :
    fmLookup (fmUpdate m k v) k = some v := by
  induction m with
  | nil => simp [fmUpdate, fmLookup]
  | cons h t ih =>
    obtain ⟨k', v'⟩ := h
    by_cases hk : k' = k
    · simp [fmUpdate, fmLookup, hk]
    · simp [fmUpdate, fmLookup, hk, ih]

theorem fmLookup_update_ne (m : FileMap) (k k' : String) (v : List Nat)
    (h : k' ≠ k) : fmLookup (fmUpdate m k v) k' = fmLookup m k' := by
  have h' : ¬ k = k' := fun hh => h hh.symm
  induction m with
  | nil => simp [fmUpdate, fmLookup, h']
  | cons hd t ih =>
    obtain ⟨k₀, v₀⟩ := hd
    by_cases hk : k₀ = k
    · subst hk
      simp [fmUpdate, fmLookup, h']
    · simp [fmUpdate, fmLookup, hk, ih]

theorem afsLookup_update_ne (m : ArchFS) (k k' : String) (v : List ZipEntry)
    (h : k' ≠ k) : afsLookup (afsUpdate m k v) k' = afsLookup m k' := by
  have h' : ¬ k = k' := fun hh => h hh.symm
  induction m with
  | nil => simp [afsUpdate, afsLookup, h']
  | cons hd t ih =>
    obtain ⟨k₀, v₀⟩ := hd
    by_cases hk : k₀ = k
    · subst hk
      simp [afsUpdate, afsLookup, h']
    · simp [afsUpdate, afsLookup, hk, ih]

theorem detectZip_foldl (msgs : List Finding) (acc : List Fix) :
    msgs.foldl detectZipStep acc = acc ++ (msgs.filter isZipFixID).map zipFixOf := by
  induction msgs generalizing acc with
  | nil => simp
  | cons m t ih =>
    simp only [List.foldl_cons, ih, List.filter_cons]
    by_cases h2 : m.checkID = "OCF-002"
    · simp [detectZipStep, isZipFixID, zipFixOf, h2]
    · by_cases h4 : m.checkID = "OCF-004"
      · simp [detectZipStep, isZipFixID, zipFixOf, h2, h4]
      · by_cases h5 : m.checkID = "OCF-005"
        · simp [detectZipStep, isZipFixID, zipFixOf, h2, h4, h5]
        · simp [detectZipStep, isZipFixID, h2, h4, h5]

/-! ## Claim theorems -/

/-- Claim C6: the mimetype fixer mutates the file map only when the
`mimetype` entry is missing or its content differs from
`application/epub+zip`, sets exactly that content, touches no other
key, and the ZIP-structural fixes (OCF-002/004/005) are produced
solely by scanning the before-report, one fix per matching finding
(the file map is not an input of `detectZipFixes` at all). -/
theorem fixMimetype_scoped_and_zip_fixes_from_report :
    (∀ files, fmLookup files "mimetype" = some expectedMimetype → fixMimetype files = ([], files)) ∧
    (∀ files, fmLookup (fixMimetype files).2 "mimetype" = some expectedMimetype) ∧
    (∀ files k, k ≠ "mimetype" → fmLookup (fixMimetype files).2 k = fmLookup files k) ∧
    (∀ r, detectZipFixes r = (r.messages.filter isZipFixID).map zipFixOf) := by
  refine ⟨?_, ?_, ?_, ?_⟩
  · intro files h
    simp [fixMimetype, h]
  · intro files
    cases hm : fmLookup files "mimetype" with
    | none => simp [fixMimetype, hm, fmLookup_update_self]
    | some c =>
      by_cases hc : c = expectedMimetype
      · simp [fixMimetype, hm, hc]
      · simp [fixMimetype, hm, hc, fmLookup_update_self]
  · intro files k hk
    cases hm : fmLookup files "mimetype" with
    | none => simp [fixMimetype, hm, fmLookup_update_ne _ _ _ _ hk]
    | some c =>
      by_cases hc : c = expectedMimetype
      · simp [fixMimetype, hm, hc]
      · simp [fixMimetype, hm, hc, fmLookup_update_ne _ _ _ _ hk]
  · intro r
    exact detectZip_foldl r.messages []

/-- Witness for C6 at concrete inputs. -/
theorem fixMimetype_scoped_witness :
    (fmLookup files6 "mimetype" = some expectedMimetype ∧ fixMimetype files6 = ([], files6)) ∧
    ("a" ≠ "mimetype" ∧ fmLookup (fixMimetype filesA).2 "a" = fmLookup filesA "a") ∧
    detectZipFixes zr6 = (zr6.messages.filter isZipFixID).map zipFixOf :=
  ⟨⟨rfl, fixMimetype_scoped_and_zip_fixes_from_report.1 files6 rfl⟩,
   ⟨by decide, fixMimetype_scoped_and_zip_fixes_from_report.2.2.1 filesA "a" (by decide)⟩,
   fixMimetype_scoped_and_zip_fixes_from_report.2.2.2 zr6⟩

/-- Claim C3: whenever an entry named `mimetype` is present among the
writer's inputs — whatever the input order, compression flags, or
extra fields — the output's index 0 is the `mimetype` entry, stored
uncompressed, with an empty extra field. -/
theorem writeEPUB_mimetype_first (entries : List ZipEntry)
    (h : ∃ e ∈ entries, e.name = "mimetype") :
    ∃ d, (writeEPUB entries).head? =
      some { name := "mimetype", data := d, storedUncompressed := true, extraField := [] } := by
  cases hf : entries.find? (fun e => e.name == "mimetype") with
  | none =>
    obtain ⟨e, he, hname⟩ := h
    have := List.find?_eq_none.mp hf e he
    simp [hname] at this
  | some m =>
    exact ⟨m.data, by simp [writeEPUB, hf]⟩

/-- Witness for C3: mimetype supplied second, flagged compressed, with
a nonempty extra field. -/
theorem writeEPUB_mimetype_first_witness :
    (∃ e ∈ entries3, e.name = "mimetype") ∧
    ∃ d, (writeEPUB entries3).head? =
      some { name := "mimetype", data := d, storedUncompressed := true, extraField := [] } :=
  ⟨⟨{ name := "mimetype", data := expectedMimetype, storedUncompressed := false, extraField := [7] },
    by simp [entries3], rfl⟩,
   writeEPUB_mimetype_first entries3
     ⟨{ name := "mimetype", data := expectedMimetype, storedUncompressed := false, extraField := [7] },
      by simp [entries3], rfl⟩⟩

/-- Claim C9: whenever the file at `path` holds exactly `data`,
path-based validation and bytes-based validation produce identical
reports (the two pipelines in `validator.go` are textually identical
after the open step). -/
theorem validate_path_bytes_agree (d : VDeps) (fs : FileMap) (path : String)
    (data : List Nat) (opts : Options) (h : bytesAt fs path = some data) :
    ValidateWithOptions d fs path opts = ValidateBytesWithOptions d data opts := by
  unfold ValidateWithOptions ValidateBytesWithOptions
  rw [h]

/-- Witness for C9 at a concrete file system. -/
theorem validate_path_bytes_agree_witness :
    bytesAt fs9 "a.epub" = some [1, 2, 3] ∧
    ValidateWithOptions d0 fs9 "a.epub" opts0 = ValidateBytesWithOptions d0 [1, 2, 3] opts0 :=
  ⟨rfl, validate_path_bytes_agree d0 fs9 "a.epub" [1, 2, 3] opts0 rfl⟩

/-- Claim C10: magic-byte detection runs only for declared `image/*`
types other than SVG with at least 8 bytes of data; outside that gate
the detection yields nothing and any correction the per-item step
emits is the extension-derived expectation. -/
theorem magic_detection_gating :
    (∀ files ep item, goHasPrefixStr item.mediaType "image/" = false →
       detectedByMagicFor files ep item = "") ∧
    (∀ files ep item, item.mediaType = "image/svg+xml" →
       detectedByMagicFor files ep item = "") ∧
    (∀ files ep item data,
       fmLookup files (resolveHref ep.rootfilePath item.href) = some data →
       data.length < 8 → detectedByMagicFor files ep item = "") ∧
    (∀ files ep item fx ct, detectedByMagicFor files ep item = "" →
       mediaFixFor files ep item = some (fx, ct) →
       ct = extensionToMediaType (goToLower (pathExt item.href))) := by
  refine ⟨?_, ?_, ?_, ?_⟩
  · intro files ep item h
    cases hm : fmLookup files (resolveHref ep.rootfilePath item.href) with
    | none => simp [detectedByMagicFor, hm]
    | some data => simp [detectedByMagicFor, hm, h]
  · intro files ep item h
    cases hm : fmLookup files (resolveHref ep.rootfilePath item.href) with
    | none => simp [detectedByMagicFor, hm]
    | some data => simp [detectedByMagicFor, hm, h]
  · intro files ep item data hm hlen
    have hlen' : ¬ 8 ≤ data.length := by omega
    simp only [detectedByMagicFor, hm]
    split
    · simp [hlen']
    · rfl
  · intro files ep item fx ct hdet hfix
    have hor : ∀ expb declared : String,
        correctTypeFor "" expb declared = expb ∨ correctTypeFor "" expb declared = "" := by
      intro expb declared
      have h1 : ¬(("" : String) ≠ "" ∧ ("" : String) ≠ declared) := by simp
      unfold correctTypeFor
      rw [if_neg h1]
      split
      · split
        · exact Or.inl rfl
        · exact Or.inr rfl
      · exact Or.inr rfl
    simp only [mediaFixFor, hdet] at hfix
    split at hfix
    · exact absurd hfix (by simp)
    · split at hfix
      · rename_i hct
        simp only [Option.some.injEq, Prod.mk.injEq] at hfix
        rcases hor (extensionToMediaType (goToLower (pathExt item.href))) item.mediaType with h | h
        · rw [← hfix.2, h]
        · rw [h] at hct
          exact absurd rfl hct
      · exact absurd hfix (by simp)

/-- Witness for C10: the 3-byte JPEG-magic file is below the 8-byte
floor, so magic detection yields nothing. -/
theorem magic_detection_gating_witness :
    fmLookup files5 (resolveHref ep5.rootfilePath item5.href) = some [0xff, 0xd8, 0xff] ∧
    ([0xff, 0xd8, 0xff] : List Nat).length < 8 ∧
    detectedByMagicFor files5 ep5 item5 = "" :=
  ⟨rfl, by decide,
   magic_detection_gating.2.2.1 files5 ep5 item5 [0xff, 0xd8, 0xff] rfl (by decide)⟩

/-- Counterexample to claim C5 as stated: a manifest item declared
`image/png` whose file bytes begin `FF D8 FF` but number only 3 —
below the fixer's 8-byte floor — receives no fix at all. -/
theorem short_jpeg_not_fixed :
    item5.mediaType = "image/png" ∧
    fmLookup files5 (resolveHref ep5.rootfilePath item5.href) = some [0xff, 0xd8, 0xff] ∧
    List.isPrefixOf jpegMagic [0xff, 0xd8, 0xff] = true ∧
    mediaFixFor files5 ep5 item5 = none ∧
    fixMediaTypes files5 ep5 = ([], files5) :=
  ⟨rfl, rfl, rfl, rfl, rfl⟩

/-- Claim C5 as amended: for every manifest item declared `image/png`
whose resolved file is present with at least 8 bytes beginning
`FF D8 FF`, the media-type fixer emits the fix correcting the declared
type to `image/jpeg`; on a one-item manifest this is exactly the fix
list of `fixMediaTypes`. -/
theorem jpeg_signature_overrides_declared_png :
    (∀ files ep item data, item.mediaType = "image/png" → item.href ≠ missingAttr →
       fmLookup files (resolveHref ep.rootfilePath item.href) = some data →
       List.isPrefixOf jpegMagic data = true → 8 ≤ data.length →
       mediaFixFor files ep item =
         some ({ checkID := "OPF-024",
                 description := "Fixed media-type for '" ++ item.href ++
                   "' from 'image/png' to 'image/jpeg'",
                 file := ep.rootfilePath }, "image/jpeg")) ∧
    (∀ files ep pkg item data, ep.package = some pkg → pkg.manifest = [item] →
       item.mediaType = "image/png" → item.href ≠ missingAttr →
       fmLookup files (resolveHref ep.rootfilePath item.href) = some data →
       List.isPrefixOf jpegMagic data = true → 8 ≤ data.length →
       (fixMediaTypes files ep).1 =
         [{ checkID := "OPF-024",
            description := "Fixed media-type for '" ++ item.href ++
              "' from 'image/png' to 'image/jpeg'",
            file := ep.rootfilePath }]) := by
  have main : ∀ (files : FileMap) (ep : EPUB) (item : ManifestItem) (data : List Nat),
      item.mediaType = "image/png" → item.href ≠ missingAttr →
      fmLookup files (resolveHref ep.rootfilePath item.href) = some data →
      List.isPrefixOf jpegMagic data = true → 8 ≤ data.length →
      mediaFixFor files ep item =
        some ({ checkID := "OPF-024",
                description := "Fixed media-type for '" ++ item.href ++
                  "' from 'image/png' to 'image/jpeg'",
                file := ep.rootfilePath }, "image/jpeg") := by
    intro files ep item data hmt hhref hlook hjpeg hlen
    match data, hjpeg with
    | b0 :: b1 :: b2 :: rest, hjpeg =>
      simp only [jpegMagic, List.isPrefixOf, Bool.and_eq_true, beq_iff_eq] at hjpeg
      obtain ⟨h0, h1, h2, -⟩ := hjpeg
      subst h0 h1 h2
      have hdet : detectedByMagicFor files ep item = "image/jpeg" := by
        simp only [detectedByMagicFor, hlook]
        rw [if_pos (by rw [hmt]; exact ⟨by decide, by decide⟩), if_pos hlen]
        rw [if_neg (by simp [pngMagic, List.isPrefixOf])]
        rw [if_pos (by simp [jpegMagic, List.isPrefixOf])]
      have hguard : ¬(item.href = missingAttr ∨ item.mediaType = missingAttr) := by
        rw [hmt]
        simp [hhref]
        decide
      have hct : correctTypeFor "image/jpeg" (extensionToMediaType (goToLower (pathExt item.href)))
          item.mediaType = "image/jpeg" := by
        rw [hmt]
        unfold correctTypeFor
        rw [if_pos ⟨by decide, by decide⟩]
      simp only [mediaFixFor, hdet, hct]
      rw [if_neg hguard, if_pos (by decide : ("image/jpeg" : String) ≠ "")]
      rw [hmt]
      have hdesc : ∀ s : String,
          s ++ "' from '" ++ "image/png" ++ "' to '" ++ "image/jpeg" ++ "'" =
            s ++ "' from 'image/png' to 'image/jpeg'" := by
        intro s
        simp only [String.append_assoc]
        congr 1
      rw [hdesc]
  refine ⟨main, ?_⟩
  intro files ep pkg item data hpkg hman hmt hhref hlook hjpeg hlen
  simp only [fixMediaTypes, hpkg, hman, List.foldl_cons, List.foldl_nil,
    main files ep item data hmt hhref hlook hjpeg hlen, List.nil_append]

/-- Witness for the amended C5 at an 11-byte JPEG declared PNG. -/
theorem jpeg_signature_overrides_witness :
    item5b.mediaType = "image/png" ∧
    fmLookup files5b (resolveHref ep5b.rootfilePath item5b.href) = some jpegData5b ∧
    List.isPrefixOf jpegMagic jpegData5b = true ∧ 8 ≤ jpegData5b.length ∧
    mediaFixFor files5b ep5b item5b =
      some ({ checkID := "OPF-024",
              description := "Fixed media-type for '" ++ item5b.href ++
                "' from 'image/png' to 'image/jpeg'",
              file := ep5b.rootfilePath }, "image/jpeg") :=
  ⟨rfl, rfl, rfl, by decide,
   jpeg_signature_overrides_declared_png.1 files5b ep5b item5b jpegData5b rfl (by decide) rfl rfl
     (by decide)⟩

/-- Counterexample to claim C4 as stated: the code gates the
timestamp fixer on the Go string comparison `Version < "3.0"`, not on
`isAtLeastV3` — version "10.0" designates at least 3 yet gets no
insertion; and even under version "3.0" with the field absent, a
package document without a locatable metadata closing tag gets no
insertion. -/
theorem dcterms_gate_counterexample :
    isAtLeastV3 "10.0" = true ∧
    ep10.package = some { version := "10.0", metadataModified := "", manifest := [] } ∧
    fmLookup files4 ep10.rootfilePath = some opfContent4 ∧
    fixDCTermsModified files4 ep10 "T" = ([], files4) ∧
    (isAtLeastV3 "3.0" = true ∧ ep4.package = some pkg4 ∧
      fixDCTermsModified filesNoMeta ep4 "T" = ([], filesNoMeta)) :=
  ⟨by decide, rfl, rfl, rfl, by decide, rfl, rfl⟩

/-- Claim C4 as amended: the timestamp fixer inserts the
modified-metadata entry (with the caller-supplied current-time string)
precisely when the version string is not byte-lexicographically below
"3.0" (the Go string-ordinal test, which coincides with `isAtLeastV3`
on the declared domain "2.0"/"3.0" but diverges elsewhere), the
modified field is absent, and the package document is present with a
locatable metadata closing tag. -/
theorem dcterms_gate_string_ordinal (files : FileMap) (ep : EPUB) (now : String)
    (pkg : PackageDoc) (hpkg : ep.package = some pkg) :
    ((fixDCTermsModified files ep now).1 ≠ [] ↔
      (goStrLt pkg.version "3.0" = false ∧ pkg.metadataModified = "" ∧
        ∃ content, fmLookup files ep.rootfilePath = some content ∧
          metaClosePoint content ≠ none)) ∧
    (∀ content i, fmLookup files ep.rootfilePath = some content →
      metaClosePoint content = some i →
      goStrLt pkg.version "3.0" = false → pkg.metadataModified = "" →
      fixDCTermsModified files ep now =
        ([{ checkID := "OPF-004",
            description := "Added dcterms:modified with value '" ++ now ++ "'",
            file := ep.rootfilePath }],
         fmUpdate files ep.rootfilePath
           (content.take i ++
             strBytes ("    <meta property=\"dcterms:modified\">" ++ now ++ "</meta>\n  ") ++
             content.drop i))) ∧
    (goStrLt "2.0" "3.0" = true ∧ isAtLeastV3 "2.0" = false ∧
     goStrLt "3.0" "3.0" = false ∧ isAtLeastV3 "3.0" = true ∧
     goStrLt "10.0" "3.0" = true ∧ isAtLeastV3 "10.0" = true) := by
  refine ⟨?_, ?_, by decide⟩
  · simp only [fixDCTermsModified, hpkg]
    by_cases h3 : goStrLt pkg.version "3.0"
    · simp [h3]
    · by_cases hmod : pkg.metadataModified = ""
      · cases hl : fmLookup files ep.rootfilePath with
        | none => simp [h3, hmod, hl]
        | some content =>
          cases hmc : metaClosePoint content with
          | none => simp [h3, hmod, hl, hmc]
          | some i => simp [h3, hmod, hl, hmc]
      · simp [h3, hmod]
  · intro content i hl hmc h3 hmod
    simp only [fixDCTermsModified, hpkg, hl, hmc, h3, hmod]
    simp [h3, hmod]

/-- Witness for the amended C4: a clean EPUB-3 insertion. -/
theorem dcterms_gate_witness :
    fmLookup files4 ep4.rootfilePath = some opfContent4 ∧
    metaClosePoint opfContent4 = some 19 ∧
    goStrLt pkg4.version "3.0" = false ∧ pkg4.metadataModified = "" ∧
    fixDCTermsModified files4 ep4 "T" =
      ([{ checkID := "OPF-004",
          description := "Added dcterms:modified with value '" ++ "T" ++ "'",
          file := ep4.rootfilePath }],
       fmUpdate files4 ep4.rootfilePath
         (opfContent4.take 19 ++
           strBytes ("    <meta property=\"dcterms:modified\">" ++ "T" ++ "</meta>\n  ") ++
           opfContent4.drop 19)) :=
  ⟨rfl, by decide, by decide, rfl,
   (dcterms_gate_string_ordinal files4 ep4 "T" pkg4 rfl).2.1 opfContent4 19 rfl (by decide)
     (by decide) rfl⟩

/-- Counterexample to claim C7 as stated: the timestamp fixer is not
idempotent over a fixed pre-captured model — run a second time on the
file map its first run produced (the model still reporting an empty
modified field), it emits the OPF-004 fix again instead of an empty
fix list, and changes the file map again. -/
theorem fixer_idempotence_counterexample :
    (fixDCTermsModified (fixDCTermsModified files4 ep4 "T").2 ep4 "T").1 ≠ [] ∧
    (fixDCTermsModified (fixDCTermsModified files4 ep4 "T").2 ep4 "T").2 ≠
      (fixDCTermsModified files4 ep4 "T").2 := by
  constructor
  · decide
  · decide

/-- Claim C7 as amended: not every fixer in the catalog is idempotent
over a fixed pre-captured model.  The mimetype fixer is: a second run
on the map produced by its first run yields an empty fix list and an
unchanged map.  The timestamp fixer is not: with the pre-captured
model held fixed, its second run emits the OPF-004 fix again
(inserting a second modified-meta entry); re-repairing an
already-repaired archive yields no further fixes only because `Repair`
re-parses the model from the repaired bytes. -/
theorem fixMimetype_idempotent_timestamp_not :
    (∀ files, fixMimetype (fixMimetype files).2 = ([], (fixMimetype files).2)) ∧
    (fixDCTermsModified (fixDCTermsModified files4 ep4 "T").2 ep4 "T").1 =
      [{ checkID := "OPF-004", description := "Added dcterms:modified with value 'T'",
         file := "content.opf" }] := by
  constructor
  · intro files
    cases hm : fmLookup files "mimetype" with
    | none =>
      simp [fixMimetype, hm, fmLookup_update_self]
    | some c =>
      by_cases hc : c = expectedMimetype
      · simp [fixMimetype, hm, hc]
      · simp only [fixMimetype, hm]
        rw [if_neg hc]
        simp [fixMimetype, fmLookup_update_self]
  · decide

/-- Counterexample to claim C2 as stated: a before-report holding one
warning (so not clean) for which the fixer catalog produces no fixes —
`Repair` still short-circuits at its second early return, writing no
output and returning the before-report unchanged as the after-report,
instead of taking the full write path. -/
theorem repair_warning_no_write_counterexample :
    w1.warningCount = 1 ∧ w1.isValid = true ∧
    Repair d1 fs1 "in.epub" "out.epub" =
      Except.ok ({ fixes := [], beforeReport := w1, afterReport := w1 }, fs1) ∧
    afsLookup fs1 "out.epub" = none :=
  ⟨rfl, rfl, rfl, rfl⟩

/-- Claim C2 as amended: `Repair` returns the short-circuit result
(before-report as after-report, no fixes, file system untouched)
exactly when the before-report has zero Fatal/Error/Warning findings
or the fixer catalog produces zero fixes; when neither holds it takes
the full path, writing the repaired archive to the output path and
re-validating it. -/
theorem repair_short_circuit_iff (d : RepairDeps) (fs : ArchFS) (inP outP : String)
    (arch : List ZipEntry) (ep : EPUB)
    (h1 : afsLookup fs inP = some arch) (h2 : d.openEp arch = some ep) :
    (Repair d fs inP outP = Except.ok (repairShort (d.validateArch arch), fs) ↔
      (((d.validateArch arch).isValid && (d.validateArch arch).warningCount == 0) = true ∨
        (repairAllFixes d (d.validateArch arch) (repairFilesOf arch) ep).1 = [])) ∧
    ((((d.validateArch arch).isValid && (d.validateArch arch).warningCount == 0) = false) →
      (repairAllFixes d (d.validateArch arch) (repairFilesOf arch) ep).1 ≠ [] →
      Repair d fs inP outP = Except.ok
        ({ fixes := (repairAllFixes d (d.validateArch arch) (repairFilesOf arch) ep).1,
           beforeReport := d.validateArch arch,
           afterReport := d.validateArch
             (repairOut (repairAllFixes d (d.validateArch arch) (repairFilesOf arch) ep).2) },
         afsUpdate fs (if outP = "" then inP ++ ".fixed.epub" else outP)
           (repairOut (repairAllFixes d (d.validateArch arch) (repairFilesOf arch) ep).2))) := by
  constructor
  · simp only [Repair, h1, h2]
    by_cases hclean : ((d.validateArch arch).isValid && (d.validateArch arch).warningCount == 0) = true
    · simp [hclean]
    · rw [if_neg hclean]
      by_cases hfix : (repairAllFixes d (d.validateArch arch) (repairFilesOf arch) ep).1 = []
      · simp [List.isEmpty_iff.mpr hfix, hclean, hfix]
      · rw [if_neg (by simp [List.isEmpty_iff, hfix])]
        constructor
        · intro h
          exfalso
          have := (Except.ok.injEq _ _).mp h
          have hfst := congrArg (fun p => p.1.fixes) this
          simp [repairShort] at hfst
          exact hfix hfst
        · intro h
          rcases h with h | h
          · exact absurd h hclean
          · exact absurd h hfix
  · intro hclean hfix
    simp only [Repair, h1, h2]
    rw [if_neg (by simp [hclean]), if_neg (by simp [List.isEmpty_iff, hfix])]

/-- Witness for the amended C2: the warning-only configuration lands
in the short-circuit case through the empty-catalog disjunct. -/
theorem repair_short_circuit_witness :
    afsLookup fs1 "in.epub" = some arch1 ∧ d1.openEp arch1 = some ep20 ∧
    (repairAllFixes d1 (d1.validateArch arch1) (repairFilesOf arch1) ep20).1 = [] ∧
    Repair d1 fs1 "in.epub" "out.epub" =
      Except.ok (repairShort (d1.validateArch arch1), fs1) :=
  ⟨rfl, rfl, rfl,
   ((repair_short_circuit_iff d1 fs1 "in.epub" "out.epub" arch1 ep20 rfl rfl).1).mpr
     (Or.inr rfl)⟩

theorem ne_append_fixed_suffix (p : String) : p ≠ p ++ ".fixed.epub" := by
  intro h
  have hl := congrArg String.length h
  rw [String.length_append] at hl
  have : (".fixed.epub" : String).length = 11 := by decide
  omega

/-- Counterexample to claim C8 as stated: a caller passing an output
path equal to the input path makes `Repair` overwrite the input
archive (its entry set after the call differs from before). -/
theorem repair_overwrites_input_counterexample :
    Repair d8 fs8 "b.epub" "b.epub" = Except.ok (res8, [("b.epub", out8)]) ∧
    afsLookup [("b.epub", out8)] "b.epub" ≠ afsLookup fs8 "b.epub" := by
  constructor
  · rfl
  · decide

/-- Claim C8 as amended: `Repair` writes only to the effective output
path (the caller's path, or input + ".fixed.epub" when none is given),
so whenever the caller-supplied output path is empty or differs from
the input path, the input archive is untouched by the call. -/
theorem repair_writes_only_output_path (d : RepairDeps) (fs : ArchFS)
    (inP outP : String) (res : DoctorResult) (fs' : ArchFS)
    (h : Repair d fs inP outP = Except.ok (res, fs')) :
    (∀ k, k ≠ (if outP = "" then inP ++ ".fixed.epub" else outP) →
      afsLookup fs' k = afsLookup fs k) ∧
    (outP = "" ∨ outP ≠ inP → afsLookup fs' inP = afsLookup fs inP) := by
  cases hl : afsLookup fs inP with
  | none =>
    simp only [Repair, hl] at h
    exact absurd h (by simp)
  | some arch =>
    cases ho : d.openEp arch with
    | none =>
      simp only [Repair, hl, ho] at h
      exact absurd h (by simp)
    | some ep =>
      simp only [Repair, hl, ho] at h
      by_cases hclean :
          ((d.validateArch arch).isValid && (d.validateArch arch).warningCount == 0) = true
      · rw [if_pos hclean] at h
        have hfs : fs' = fs := by
          have h2 := congrArg Prod.snd ((Except.ok.injEq _ _).mp h)
          simpa using h2.symm
        subst hfs
        exact ⟨fun _ _ => rfl, fun _ => hl⟩
      · rw [if_neg hclean] at h
        by_cases hfix :
            (repairAllFixes d (d.validateArch arch) (repairFilesOf arch) ep).1.isEmpty = true
        · rw [if_pos hfix] at h
          have hfs : fs' = fs := by
            have h2 := congrArg Prod.snd ((Except.ok.injEq _ _).mp h)
            simpa using h2.symm
          subst hfs
          exact ⟨fun _ _ => rfl, fun _ => hl⟩
        · rw [if_neg hfix] at h
          have hfs : fs' = afsUpdate fs (if outP = "" then inP ++ ".fixed.epub" else outP)
              (repairOut (repairAllFixes d (d.validateArch arch) (repairFilesOf arch) ep).2) := by
            have h2 := congrArg Prod.snd ((Except.ok.injEq _ _).mp h)
            simpa using h2.symm
          have hne : inP ≠ (if outP = "" then inP ++ ".fixed.epub" else outP) →
              afsLookup fs' inP = some arch := by
            intro hne
            rw [hfs, afsLookup_update_ne _ _ _ _ hne]
            exact hl
          refine ⟨fun k hk => ?_, fun hout => ?_⟩
          · rw [hfs]
            exact afsLookup_update_ne _ _ _ _ hk
          · refine hne ?_
            rcases hout with hout | hout
            · rw [if_pos hout]
              exact ne_append_fixed_suffix inP
            · by_cases hempty : outP = ""
              · rw [if_pos hempty]
                exact ne_append_fixed_suffix inP
              · rw [if_neg hempty]
                exact fun hh => hout hh.symm

/-- Witness for the amended C8: with a distinct output path the input
binding survives the write. -/
theorem repair_writes_only_output_witness :
    Repair d8 fs8 "b.epub" "out.epub" =
      Except.ok (res8, [("b.epub", arch8), ("out.epub", out8)]) ∧
    afsLookup [("b.epub", arch8), ("out.epub", out8)] "b.epub" = afsLookup fs8 "b.epub" :=
  ⟨rfl,
   (repair_writes_only_output_path d8 fs8 "b.epub" "out.epub" res8
       [("b.epub", arch8), ("out.epub", out8)] rfl).2 (Or.inr (by decide))⟩

theorem countFatal_append (a b : List Finding) :
    countFatal (a ++ b) = countFatal a + countFatal b := by
  simp [countFatal, List.filter_append]

theorem vbwo_total (d : VDeps) (data : List Nat) (opts : Options) :
    ∃ r, ValidateBytesWithOptions d data opts = Except.ok r := by
  cases hres : d.openFromBytes data with
  | error e =>
    exact ⟨{ messages := [⟨Severity.fatal, "PKG-000", "Could not open EPUB: " ++ e⟩] },
           by simp [ValidateBytesWithOptions, hres]⟩
  | ok ep =>
    simp only [ValidateBytesWithOptions, hres]
    split
    · exact ⟨_, rfl⟩
    · split
      · exact ⟨_, rfl⟩
      · exact ⟨_, rfl⟩

theorem vwo_total (d : VDeps) (fs : FileMap) (path : String) (opts : Options) :
    ∃ r, ValidateWithOptions d fs path opts = Except.ok r := by
  cases hb : bytesAt fs path with
  | none =>
    refine ⟨{ messages := [⟨Severity.fatal, "PKG-000", "Could not open EPUB: " ++
      ("open " ++ path ++ ": no such file or directory")⟩] }, ?_⟩
    simp [ValidateWithOptions, hb]
  | some data =>
    cases hres : d.openFromBytes data with
    | error e =>
      exact ⟨{ messages := [⟨Severity.fatal, "PKG-000", "Could not open EPUB: " ++ e⟩] },
             by simp [ValidateWithOptions, hb, hres]⟩
    | ok ep =>
      simp only [ValidateWithOptions, hb, hres]
      split
      · exact ⟨_, rfl⟩
      · split
        · exact ⟨_, rfl⟩
        · exact ⟨_, rfl⟩

/-- Claim C1: both validation entry points always return a report and
a nil error; an open failure yields exactly the single Fatal PKG-000
finding and runs no phase; a fatal container or package boundary ends
the report at that phase's findings, with exactly one Fatal among
them; otherwise every phase runs in order and the report carries no
Fatal finding at all. -/
theorem validate_pipeline_error_handling (d : VDeps) (h : PhasesFatalSpec d)
    (data : List Nat) (opts : Options) :
    (∃ r, ValidateBytesWithOptions d data opts = Except.ok r) ∧
    (∀ fs path, ∃ r, ValidateWithOptions d fs path opts = Except.ok r) ∧
    (∀ e, d.openFromBytes data = Except.error e →
      ValidateBytesWithOptions d data opts = Except.ok
        { messages := [{ severity := Severity.fatal, checkID := "PKG-000",
                         message := "Could not open EPUB: " ++ e }] }) ∧
    (∀ ep, d.openFromBytes data = Except.ok ep →
      ((d.checkOCF ep opts).2 = true →
        ValidateBytesWithOptions d data opts = Except.ok { messages := (d.checkOCF ep opts).1 } ∧
        countFatal (d.checkOCF ep opts).1 = 1) ∧
      ((d.checkOCF ep opts).2 = false → (d.checkOPF ep).2 = true →
        ValidateBytesWithOptions d data opts = Except.ok
          { messages := (d.checkOCF ep opts).1 ++ (d.checkOPF ep).1 } ∧
        countFatal ((d.checkOCF ep opts).1 ++ (d.checkOPF ep).1) = 1) ∧
      ((d.checkOCF ep opts).2 = false → (d.checkOPF ep).2 = false →
        ValidateBytesWithOptions d data opts = Except.ok
          { messages := fullPhaseFindings d ep opts } ∧
        countFatal (fullPhaseFindings d ep opts) = 0)) := by
  obtain ⟨hocf1, hocf0, hopf1, hopf0, href, hnav, henc, hcont, hcss, hfxl, hmed, hep2, hacc⟩ := h
  refine ⟨vbwo_total d data opts, fun fs path => vwo_total d fs path opts, ?_, ?_⟩
  · intro e he
    simp [ValidateBytesWithOptions, he]
  · intro ep hep
    refine ⟨?_, ?_, ?_⟩
    · intro hb1
      refine ⟨by simp [ValidateBytesWithOptions, hep, hb1], hocf1 ep opts hb1⟩
    · intro hb1 hb2
      constructor
      · simp [ValidateBytesWithOptions, hep, hb1, hb2]
      · rw [countFatal_append, hocf0 ep opts hb1, hopf1 ep hb2]
    · intro hb1 hb2
      constructor
      · simp [ValidateBytesWithOptions, hep, hb1, hb2, fullPhaseFindings]
      · simp only [fullPhaseFindings, countFatal_append, hocf0 ep opts hb1, hopf0 ep hb2,
          href, hnav, henc, hcont, hcss, hfxl, hmed, hep2]
        cases hA : opts.accessibility
        · simp [countFatal]
        · simp [hacc]

theorem d0_phases_spec : PhasesFatalSpec d0 := by
  refine ⟨?_, ?_, ?_, ?_, ?_, ?_, ?_, ?_, ?_, ?_, ?_, ?_, ?_⟩ <;>
    intro ep <;> intros <;> simp_all [d0, countFatal]

/-- Witness for C1 at a concrete dependency set and input. -/
theorem validate_pipeline_error_handling_witness :
    PhasesFatalSpec d0 ∧
    (∃ r, ValidateBytesWithOptions d0 [] opts0 = Except.ok r) :=
  ⟨d0_phases_spec, (validate_pipeline_error_handling d0 d0_phases_spec [] opts0).1⟩

end EpubCheck
